import Mathlib

/-
Shallow embedding of the inventory assembly and caching engine of
src/kube.py (class K8sInventory).

Python values that may be None are modelled as Option; a Python dict is
modelled as an association list in insertion order, with assignment
(dictSet) replacing in place or appending a new key at the end, exactly
as a Python dict behaves.  A Host Identifier (the `dest` computed in
add_node) is an Option String, because get_node_public_ip /
get_node_private_ip fall off the end of their loop and return None when
no address of the requested type exists.  The external collaborator
(kubectl) is a parameter: the full node list it would return, and a
partial map for single-node fetches.  Timestamps are modelled as
integers.
-/

namespace KubePy

/-- One entry of a node's `status.addresses` list. -/
structure Address where
  type : String
  address : String
deriving DecidableEq

/-- A raw Node Record, flattening the `metadata` / `status` / `spec`
paths of the kubectl JSON that src/kube.py reads: `metadata.name`,
`metadata.annotations`, `metadata.labels`, `status.addresses`,
`status.allocatable`, `status.capacity`, and the optional
`spec.taints`, `spec.podCIDR`, `spec.providerID`, `spec.externalID`
(an Option field is `none` when the key is absent from the JSON; the
contents of `taints` are opaque to the script and modelled as opaque
strings). -/
structure Node where
  name : String
  annotations : List (String × String)
  labels : List (String × String)
  addresses : List Address
  allocatable : List (String × String)
  capacity : List (String × String)
  taints : Option (List String)
  podCIDR : Option String
  providerID : Option String
  externalID : Option String
deriving DecidableEq

/-- The already-resolved configuration the core consumes:
`use_public_ip` and `use_private_ip` from kube.ini. -/
structure Config where
  use_public_ip : Bool
  use_private_ip : Bool
deriving DecidableEq

/-- A Host Identifier: the `dest` value of add_node, None when the
selected address does not exist. -/
abbrev Ident := Option String

/-- Python dict assignment `m[k] = v` on an association list: replace in
place if the key is present, otherwise append at the end. -/
def dictSet {α β : Type} [DecidableEq α] : List (α × β) → α → β → List (α × β)
  | [], k, v => [(k, v)]
  | p :: rest, k, v => if p.1 = k then (k, v) :: rest else p :: dictSet rest k v

/-- Python dict lookup: `m[k]` as an Option (`k in m` is `isSome`). -/
def dictGet {α β : Type} [DecidableEq α] : List (α × β) → α → Option β
  | [], _ => none
  | p :: rest, k => if p.1 = k then some p.2 else dictGet rest k

/-- The group map of the inventory: group name to member identifiers
(the non-`_meta` keys of `self.inventory`). -/
abbrev Groups := List (String × List Ident)

/-- `self.push(my_dict, key, element)` (src/kube.py line 286): append
`element` to the list at `key`, creating the list if the key is new. -/
def push : Groups → String → Ident → Groups
  | [], key, elem => [(key, [elem])]
  | g :: rest, key, elem =>
      if g.1 = key then (g.1, g.2 ++ [elem]) :: rest
      else g :: push rest key elem

/-- The per-host variable bundle produced by `_get_host_info`
(src/kube.py line 244).  Fields that the Python code only adds
conditionally are Option, `none` meaning the key is omitted. -/
structure NodeVars where
  annotations : List (String × String)
  labels : List (String × String)
  addresses : List Address
  allocatable : List (String × String)
  capacity : List (String × String)
  taints : Option (List String)
  podCIDR : Option String
  providerID : Option String
  externalID : Option String
  public_ip : Option String
  private_ip : Option String
  ansible_ssh_host : Option String
  ansible_host : Option String
deriving DecidableEq

/-- First address of the given type, in sequence order: the shared loop
body of get_node_public_ip / get_node_private_ip; the Python loop
returns None by falling off the end. -/
def firstAddr (t : String) : List Address → Option String
  | [] => none
  | a :: rest => if a.type = t then some a.address else firstAddr t rest

/-- `get_node_public_ip` (src/kube.py line 213): first ExternalIP. -/
def get_node_public_ip (node : Node) : Option String :=
  firstAddr "ExternalIP" node.addresses

/-- `get_node_private_ip` (src/kube.py line 219): first InternalIP. -/
def get_node_private_ip (node : Node) : Option String :=
  firstAddr "InternalIP" node.addresses

/-- `get_node_name` (src/kube.py line 186). -/
def get_node_name (node : Node) : String :=
  node.name

/-- `get_node_label` (src/kube.py line 180): the label's value if the
node carries the label, else the empty string. -/
def get_node_label (node : Node) (label : String) : String :=
  match dictGet node.labels label with
  | some v => v
  | none => ""

/-- `_get_host_info` (src/kube.py line 244).  The bundle copies the
record's fields, sets public_ip / private_ip from the selectors, and
computes the SSH-routing value exactly as the source does: `ssh_ip`
starts as the empty string; the first branch tests use_public_ip; the
`elif` branch of the source tests use_public_ip AGAIN (it is faithfully
reproduced here); then only a value equal to the empty string is
replaced by private_ip. -/
def get_host_info_node (cfg : Config) (node : Node) : NodeVars :=
  let pub := get_node_public_ip node
  let priv := get_node_private_ip node
  let ssh0 : Option String := some ""
  let ssh1 : Option String :=
    if cfg.use_public_ip then pub
    else if cfg.use_public_ip then priv
    else ssh0
  let ssh_ip := if ssh1 = some "" then priv else ssh1
  { annotations := node.annotations
    labels := node.labels
    addresses := node.addresses
    allocatable := node.allocatable
    capacity := node.capacity
    taints := node.taints
    podCIDR := node.podCIDR
    providerID := node.providerID
    externalID := node.externalID
    public_ip := pub
    private_ip := priv
    ansible_ssh_host := ssh_ip
    ansible_host := ssh_ip }

/-- The `_meta.hostvars` map: Host Identifier to bundle. -/
abbrev Hostvars := List (Ident × NodeVars)

/-- The reverse Index: Host Identifier to node name. -/
abbrev Index := List (Ident × String)

/-- The inventory dict: the label groups (and `all`) plus the reserved
`_meta.hostvars` map, kept as a separate field. -/
structure Inventory where
  groups : Groups
  hostvars : Hostvars
deriving DecidableEq

/-- The mutable state of the K8sInventory object: `self.inventory`,
`self.index`, `self.node_labels` (the label-key dict, as its key list in
insertion order). -/
structure BState where
  inventory : Inventory
  index : Index
  node_labels : List String
deriving DecidableEq

/-- The state right after `__init__` builds the empty structures. -/
def initState : BState :=
  { inventory := { groups := [], hostvars := [] }, index := [], node_labels := [] }

/-- The `dest` computation at the top of `add_node`
(src/kube.py lines 191-196). -/
def dest_of (cfg : Config) (node : Node) : Ident :=
  if cfg.use_public_ip then get_node_public_ip node
  else if cfg.use_private_ip then get_node_private_ip node
  else some (get_node_name node)

/-- `add_node` (src/kube.py line 189): record the index entry, push the
identifier into `all`, push it into one group per label key currently in
`self.node_labels` (the group name is `get_node_label`'s result), and
store the bundle in hostvars. -/
def add_node (cfg : Config) (s : BState) (node : Node) : BState :=
  let dest := dest_of cfg node
  let index1 := dictSet s.index dest (get_node_name node)
  let groups1 := push s.inventory.groups "all" dest
  let groups2 := s.node_labels.foldl
    (fun gs label => push gs (get_node_label node label) dest) groups1
  let hostvars1 := dictSet s.inventory.hostvars dest (get_host_info_node cfg node)
  { inventory := { groups := groups2, hostvars := hostvars1 }
    index := index1
    node_labels := s.node_labels }

/-- The label-collection loop of `get_nodes` (src/kube.py lines
166-167): `self.node_labels[label] = 1` for each label key of the node,
i.e. append the keys not yet present, in order. -/
def collect_labels (ks : List String) (labels : List (String × String)) : List String :=
  labels.foldl (fun acc p => if p.1 ∈ acc then acc else acc ++ [p.1]) ks

/-- The per-node body of `get_nodes` (src/kube.py lines 164-167), folded
over the node list the collaborator returned, starting from the given
object state.  Faithful to the source order: `add_node` runs BEFORE the
node's label keys are merged into `self.node_labels`. -/
def get_nodes_from (cfg : Config) (s : BState) : List Node → BState
  | [] => s
  | node :: rest =>
      let s1 := add_node cfg s node
      let s2 := { s1 with node_labels := collect_labels s1.node_labels node.labels }
      get_nodes_from cfg s2 rest

/-- `get_nodes` on a fresh object (the `__init__` build path), with the
collaborator's successful response as a parameter. -/
def get_nodes (cfg : Config) (nodes : List Node) : BState :=
  get_nodes_from cfg initState nodes

/-- How an operation of the script can abort: `sys.exit(msg)`, or an
uncaught Python `NameError` on an unbound variable. -/
inductive PyError where
  | exit (msg : String)
  | nameError (name : String)
deriving DecidableEq

/-- `get_node` (src/kube.py line 171), with the single-node collaborator
as a parameter (`none` = kubectl failed for that name).  The source's
handler is `except subprocess.CalledProcessError as err:` followed by
`sys.exit("kubectl error\n%s" % e)`; the name `e` is unbound in that
scope (the exception was bound as `err`), so evaluating the argument
raises `NameError: name 'e' is not defined` before sys.exit is ever
called. -/
def get_node (fetch : String → Option Node) (id : String) : Except PyError Node :=
  match fetch id with
  | some node => Except.ok node
  | none => Except.error (PyError.nameError "e")

/-- The external collaborator as seen by the orchestrator: the node list
a full `kubectl get nodes` would return, and the single-node fetch. -/
structure HostQueryEnv where
  nodes : List Node
  fetch : String → Option Node

/-- The tail of `get_host_info` (src/kube.py lines 239-242): resolve the
host through the given index, re-fetch that node and normalize it.  The
first component of the result counts the cache rebuilds performed.
The result `Except.ok none` stands for printing the empty object. -/
def host_fetch (cfg : Config) (env : HostQueryEnv) (idx : Index) (host : String)
    (rebuilds : Nat) : Nat × Except PyError (Option NodeVars) :=
  match dictGet idx (some host) with
  | some node_id =>
      match get_node env.fetch node_id with
      | Except.ok node => (rebuilds, Except.ok (some (get_host_info_node cfg node)))
      | Except.error err => (rebuilds, Except.error err)
  | none => (rebuilds, Except.ok none)

/-- `get_host_info` (src/kube.py line 225): if the in-memory index is
empty, load the cached index; if the host is absent, rebuild once (the
rebuild folds `get_nodes` over the collaborator's list starting from the
CURRENT object state, as `do_api_calls_update_cache` mutates `self`) and
look up again; if still absent return the empty object; otherwise
re-fetch the resolved node and normalize it fresh. -/
def get_host_info (cfg : Config) (env : HostQueryEnv) (st : BState)
    (cachedIndex : Index) (host : String) : Nat × Except PyError (Option NodeVars) :=
  let st0 := if st.index.isEmpty then { st with index := cachedIndex } else st
  if (dictGet st0.index (some host)).isSome then
    host_fetch cfg env st0.index host 0
  else
    let st1 := get_nodes_from cfg st0 env.nodes
    if (dictGet st1.index (some host)).isSome then
      host_fetch cfg env st1.index host 1
    else
      (1, Except.ok none)

/-- The cache state `is_cache_valid` inspects: whether each artifact
file exists, and the inventory artifact's modification time. -/
structure CacheFS where
  cacheExists : Bool
  cacheModTime : Int
  indexExists : Bool
deriving DecidableEq

/-- `is_cache_valid` (src/kube.py line 116), with the clock's current
time as a parameter: the inventory artifact exists, and
`mod_time + cache_max_age > current_time`, and the index artifact
exists; any other path returns False. -/
def is_cache_valid (fs : CacheFS) (cache_max_age : Int) (now : Int) : Bool :=
  if fs.cacheExists then
    if fs.cacheModTime + cache_max_age > now then
      if fs.indexExists then true else false
    else false
  else false

/-- The keys of a dict modelled as an association list. -/
def keysOf {β : Type} (m : List (Ident × β)) : List Ident :=
  m.map (fun p => p.1)

/-- Every identifier appearing in any group of a group map. -/
def allMembers (gs : Groups) : List Ident :=
  gs.foldr (fun g acc => g.2 ++ acc) []

/-- The members of the group with the given name (concatenated over all
entries carrying that name). -/
def groupOf (gs : Groups) (key : String) : List Ident :=
  gs.foldr (fun g acc => if g.1 = key then g.2 ++ acc else acc) []

/-- A concrete Node Record with the sparse fields absent, for test
inputs. -/
def mkNode (name : String) (labels : List (String × String))
    (addresses : List Address) : Node :=
  { name := name, annotations := [], labels := labels, addresses := addresses
    allocatable := [], capacity := [], taints := none, podCIDR := none
    providerID := none, externalID := none }

/-- The default policy: neither IP preference set, identifier = name. -/
def cfgName : Config := { use_public_ip := false, use_private_ip := false }

/-- The public-IP policy. -/
def cfgPub : Config := { use_public_ip := true, use_private_ip := false }

/-- node-a of the end-to-end scenario: label role=worker. -/
def nodeA : Node := mkNode "node-a" [("role", "worker")] []

/-- node-b of the end-to-end scenario: label role=master. -/
def nodeB : Node := mkNode "node-b" [("role", "master")] []

/-- A node carrying label k=v. -/
def nodeK : Node := mkNode "n1" [("k", "v")] []

/-- A node with zero labels. -/
def nodeNoLabels : Node := mkNode "n2" [] []

/-- A node whose only address is an InternalIP. -/
def nodeInternalOnly : Node :=
  mkNode "node-int" [] [{ type := "InternalIP", address := "10.0.0.1" }]

@[simp]
theorem keysOf_nil {β : Type} : keysOf ([] : List (Ident × β)) = [] := rfl

@[simp]
theorem keysOf_cons {β : Type} (p : Ident × β) (m : List (Ident × β)) :
    keysOf (p :: m) = p.1 :: keysOf m := rfl

@[simp]
theorem allMembers_nil : allMembers [] = [] := rfl

@[simp]
theorem allMembers_cons (g : String × List Ident) (gs : Groups) :
    allMembers (g :: gs) = g.2 ++ allMembers gs := rfl

@[simp]
theorem groupOf_nil (key : String) : groupOf [] key = [] := rfl

@[simp]
theorem groupOf_cons (g : String × List Ident) (gs : Groups) (key : String) :
    groupOf (g :: gs) key = if g.1 = key then g.2 ++ groupOf gs key else groupOf gs key := rfl

theorem mem_keysOf_dictSet {β : Type} (m : List (Ident × β)) (key k : Ident) (v : β) :
    k ∈ keysOf (dictSet m key v) ↔ k = key ∨ k ∈ keysOf m := by
  induction m with
  | nil => simp [dictSet]
  | cons p rest ih =>
      by_cases h : p.1 = key
      · subst h
        simp [dictSet]
      · simp [dictSet, h, ih]
        tauto

theorem mem_allMembers_push (gs : Groups) (key : String) (e x : Ident)
    (h : x ∈ allMembers (push gs key e)) : x = e ∨ x ∈ allMembers gs := by
  induction gs with
  | nil =>
      simp [push] at h
      exact Or.inl h
  | cons g rest ih =>
      by_cases hk : g.1 = key
      · simp only [push, if_pos hk, allMembers_cons, List.mem_append,
          List.mem_singleton] at h ⊢
        tauto
      · simp only [push, if_neg hk, allMembers_cons, List.mem_append] at h ⊢
        tauto

theorem mem_allMembers_push_self (gs : Groups) (key : String) (e : Ident) :
    e ∈ allMembers (push gs key e) := by
  induction gs with
  | nil => simp [push]
  | cons g rest ih =>
      by_cases hk : g.1 = key
      · simp [push, if_pos hk]
      · simp only [push, if_neg hk, allMembers_cons, List.mem_append]
        exact Or.inr ih

theorem mem_allMembers_push_mono (gs : Groups) (key : String) (e x : Ident)
    (h : x ∈ allMembers gs) : x ∈ allMembers (push gs key e) := by
  induction gs with
  | nil => simp at h
  | cons g rest ih =>
      simp only [allMembers_cons, List.mem_append] at h
      by_cases hk : g.1 = key
      · simp only [push, if_pos hk, allMembers_cons, List.mem_append,
          List.mem_singleton]
        tauto
      · simp only [push, if_neg hk, allMembers_cons, List.mem_append]
        tauto

theorem mem_allMembers_foldl_push (f : String → String) (e x : Ident) :
    ∀ (labels : List String) (gs : Groups),
      x ∈ allMembers (labels.foldl (fun gs label => push gs (f label) e) gs) →
      x = e ∨ x ∈ allMembers gs := by
  intro labels
  induction labels with
  | nil => intro gs h; exact Or.inr h
  | cons l rest ih =>
      intro gs h
      rcases ih (push gs (f l) e) (by simpa [List.foldl] using h) with h2 | h2
      · exact Or.inl h2
      · exact mem_allMembers_push gs (f l) e x h2

theorem mem_allMembers_foldl_push_mono (f : String → String) (e x : Ident) :
    ∀ (labels : List String) (gs : Groups), x ∈ allMembers gs →
      x ∈ allMembers (labels.foldl (fun gs label => push gs (f label) e) gs) := by
  intro labels
  induction labels with
  | nil => intro gs h; exact h
  | cons l rest ih =>
      intro gs h
      simpa [List.foldl] using ih (push gs (f l) e) (mem_allMembers_push_mono gs (f l) e x h)

theorem mem_allMembers_of_mem (gs : Groups) (g : String × List Ident)
    (hg : g ∈ gs) (m : Ident) (hm : m ∈ g.2) : m ∈ allMembers gs := by
  induction gs with
  | nil => simp at hg
  | cons g2 rest ih =>
      rcases List.mem_cons.mp hg with h | h
      · subst h
        exact List.mem_append.mpr (Or.inl hm)
      · exact List.mem_append.mpr (Or.inr (ih h))

theorem mem_groupOf_push_self (gs : Groups) (key : String) (e : Ident) :
    e ∈ groupOf (push gs key e) key := by
  induction gs with
  | nil => simp [push]
  | cons g rest ih =>
      by_cases hk : g.1 = key
      · simp [push, if_pos hk, hk]
      · simp only [push, if_neg hk, groupOf_cons, if_neg hk]
        exact ih

theorem mem_groupOf_push_mono (gs : Groups) (key key2 : String) (e x : Ident)
    (h : x ∈ groupOf gs key) : x ∈ groupOf (push gs key2 e) key := by
  induction gs with
  | nil => simp at h
  | cons g rest ih =>
      by_cases hk2 : g.1 = key2
      · by_cases hk : g.1 = key
        · simp only [groupOf_cons, if_pos hk, List.mem_append] at h
          simp only [push, if_pos hk2, groupOf_cons, if_pos hk, List.mem_append,
            List.mem_singleton]
          tauto
        · simp only [groupOf_cons, if_neg hk] at h
          simp only [push, if_pos hk2, groupOf_cons, if_neg hk]
          exact h
      · by_cases hk : g.1 = key
        · simp only [groupOf_cons, if_pos hk, List.mem_append] at h
          simp only [push, if_neg hk2, groupOf_cons, if_pos hk, List.mem_append]
          tauto
        · simp only [groupOf_cons, if_neg hk] at h
          simp only [push, if_neg hk2, groupOf_cons, if_neg hk]
          exact ih h

theorem mem_groupOf_foldl_mono (f : String → String) (e x : Ident) (key : String) :
    ∀ (labels : List String) (gs : Groups), x ∈ groupOf gs key →
      x ∈ groupOf (labels.foldl (fun gs label => push gs (f label) e) gs) key := by
  intro labels
  induction labels with
  | nil => intro gs h; exact h
  | cons l rest ih =>
      intro gs h
      simpa [List.foldl] using ih (push gs (f l) e) (mem_groupOf_push_mono gs key (f l) e x h)

theorem mem_groupOf_foldl_push (f : String → String) (e : Ident) :
    ∀ (labels : List String) (gs : Groups) (label : String), label ∈ labels →
      e ∈ groupOf (labels.foldl (fun gs label2 => push gs (f label2) e) gs) (f label) := by
  intro labels
  induction labels with
  | nil => intro gs label h; simp at h
  | cons l rest ih =>
      intro gs label h
      rcases List.mem_cons.mp h with h2 | h2
      · subst h2
        exact mem_groupOf_foldl_mono f e e (f label) rest (push gs (f label) e)
          (mem_groupOf_push_self gs (f label) e)
      · exact ih (push gs (f l) e) label h2

/-- The two consistency invariants of the build state: every identifier
in any group is a hostvars key, and every index key is a hostvars key. -/
def InvOK (s : BState) : Prop :=
  (∀ m ∈ allMembers s.inventory.groups, m ∈ keysOf s.inventory.hostvars) ∧
  (∀ k ∈ keysOf s.index, k ∈ keysOf s.inventory.hostvars)

theorem invOK_add_node (cfg : Config) (s : BState) (node : Node)
    (h : InvOK s) : InvOK (add_node cfg s node) := by
  constructor
  · intro m hm
    simp only [add_node] at hm ⊢
    rcases mem_allMembers_foldl_push (get_node_label node) (dest_of cfg node) m
        s.node_labels (push s.inventory.groups "all" (dest_of cfg node)) hm with h2 | h2
    · exact (mem_keysOf_dictSet _ _ _ _).mpr (Or.inl h2)
    · rcases mem_allMembers_push s.inventory.groups "all" (dest_of cfg node) m h2 with h3 | h3
      · exact (mem_keysOf_dictSet _ _ _ _).mpr (Or.inl h3)
      · exact (mem_keysOf_dictSet _ _ _ _).mpr (Or.inr (h.1 m h3))
  · intro k hk
    simp only [add_node] at hk ⊢
    rcases (mem_keysOf_dictSet s.index (dest_of cfg node) k (get_node_name node)).mp hk with h2 | h2
    · exact (mem_keysOf_dictSet _ _ _ _).mpr (Or.inl h2)
    · exact (mem_keysOf_dictSet _ _ _ _).mpr (Or.inr (h.2 k h2))

theorem invOK_get_nodes_from (cfg : Config) (nodes : List Node) :
    ∀ (s : BState), InvOK s → InvOK (get_nodes_from cfg s nodes) := by
  induction nodes with
  | nil => intro s h; exact h
  | cons node rest ih =>
      intro s h
      exact ih _ (invOK_add_node cfg s node h)

/-- Claim C1, evidence of the code defect: at the claim's two-node input
the build does NOT collect the label keys of all nodes before folding —
`get_nodes` runs `add_node` on each node before merging that node's
label keys into the working set, so node-a is folded while the set is
still empty and no `worker` group is ever created.  The produced groups
are `all:[node-a, node-b]` and `master:[node-b]` only, against the
claimed `all:[a,b], worker:[a], master:[b]`. -/
theorem C1_interleaved_label_collection :
    (get_nodes cfgName [nodeA, nodeB]).inventory.groups
      = [("all", [some "node-a", some "node-b"]), ("master", [some "node-b"])] := by
  decide

/-- Claim C2, counterexample: `n2` carries zero labels, yet building
`[n1 with label k=v, n2]` pushes n2's identifier into the group named by
the empty string — the label loop of add_node pushes unconditionally,
with `get_node_label` producing `""` for a label the node does not
carry, so a zero-label node does NOT appear only in `all`. -/
theorem C2_counterexample :
    (get_nodes cfgName [nodeK, nodeNoLabels]).inventory.groups
      = [("all", [some "n1", some "n2"]), ("", [some "n2"])] := by
  decide

/-- Claim C2 as amended: for every label key in the working set the
node's Host Identifier is appended to the group named by
`get_node_label`'s result — the label's value when the node carries the
label, and the empty string when it does not — so a node lacking a
working-set label is pushed into the group named `""` rather than being
skipped. -/
theorem C2_amended_push_by_label_value (cfg : Config) (s : BState) (node : Node)
    (label : String) (h : label ∈ s.node_labels) :
    dest_of cfg node ∈
      groupOf (add_node cfg s node).inventory.groups (get_node_label node label) ∧
    (dictGet node.labels label = none → get_node_label node label = "") := by
  constructor
  · simp only [add_node]
    exact mem_groupOf_foldl_push (get_node_label node) (dest_of cfg node)
      s.node_labels (push s.inventory.groups "all" (dest_of cfg node)) label h
  · intro h2
    simp [get_node_label, h2]

/-- Claim C2 amended theorem at a concrete input: `role` is in the
working set, the node carries no labels, and its identifier is a member
of the group named `""`. -/
theorem C2_amended_push_by_label_value_witness :
    dest_of cfgName nodeNoLabels ∈
      groupOf (add_node cfgName { initState with node_labels := ["role"] }
        nodeNoLabels).inventory.groups (get_node_label nodeNoLabels "role") ∧
    (dictGet nodeNoLabels.labels "role" = none →
      get_node_label nodeNoLabels "role" = "") :=
  C2_amended_push_by_label_value cfgName { initState with node_labels := ["role"] }
    nodeNoLabels "role" (by decide)

/-- Claim C3, counterexample: with the public-IP policy active and a
node whose only address is an InternalIP, the chosen value is absent
(Python None) and the SSH fields receive that absent value — they do NOT
fall back to the non-empty private_ip. -/
theorem C3_counterexample :
    (get_host_info_node cfgPub nodeInternalOnly).ansible_host = none ∧
    (get_host_info_node cfgPub nodeInternalOnly).private_ip = some "10.0.0.1" := by
  decide

/-- Claim C3 as amended: both SSH fields always receive the same value;
when the public-IP policy is active that value is public_ip, replaced by
private_ip only when public_ip is the literal empty string (an absent
public address — None — is NOT replaced); in every other case the value
is private_ip, reached through the empty-string fallback because the
source's private-IP branch re-tests the public flag and is unreachable. -/
theorem C3_amended_ssh_fields (cfg : Config) (node : Node) :
    (get_host_info_node cfg node).ansible_ssh_host
      = (get_host_info_node cfg node).ansible_host ∧
    (get_host_info_node cfg node).ansible_host
      = (if cfg.use_public_ip then
           (if get_node_public_ip node = some "" then get_node_private_ip node
            else get_node_public_ip node)
         else get_node_private_ip node) := by
  cases hp : cfg.use_public_ip <;> simp [get_host_info_node, hp]

theorem firstAddr_eq_find (t : String) (l : List Address) :
    firstAddr t l = (l.find? (fun a => a.type == t)).map (fun a => a.address) := by
  induction l with
  | nil => rfl
  | cons a rest ih =>
      by_cases h : a.type = t
      · rw [List.find?_cons_of_pos _ (by simp [h])]
        simp [firstAddr, h]
      · rw [List.find?_cons_of_neg _ (by simp [h])]
        simp [firstAddr, h, ih]

/-- Claim C4: the address selector returns the address field of the
first entry of the requested type tag in sequence order (ExternalIP for
public, InternalIP for private), `none` — Python None, the "none found"
(empty/absent) signal — when no entry matches; and the bundle's
public_ip / private_ip fields are exactly these selector results. -/
theorem C4_first_match_selection (cfg : Config) (node : Node) :
    get_node_public_ip node
      = (node.addresses.find? (fun a => a.type == "ExternalIP")).map (fun a => a.address) ∧
    get_node_private_ip node
      = (node.addresses.find? (fun a => a.type == "InternalIP")).map (fun a => a.address) ∧
    (get_host_info_node cfg node).public_ip = get_node_public_ip node ∧
    (get_host_info_node cfg node).private_ip = get_node_private_ip node := by
  refine ⟨firstAddr_eq_find _ _, firstAddr_eq_find _ _, ?_, ?_⟩ <;>
    simp [get_host_info_node]

/-- Claim C5, counterexample: an inventory artifact of age exactly
maxAgeSeconds (modification time 0, max age 10, clock 10 — age 10 ≤ 10)
with an existing index is NOT fresh, because the source requires
`mod_time + cache_max_age` to be STRICTLY greater than the clock. -/
theorem C5_counterexample :
    is_cache_valid { cacheExists := true, cacheModTime := 0, indexExists := true } 10 10
        = false ∧
    ((10 : Int) - 0 ≤ 10) := by
  decide

/-- Claim C5 as amended: the freshness check returns true iff the
inventory artifact exists, its age (now − modification time) is strictly
less than maxAgeSeconds, and the index artifact also exists; an
inventory without an index is never fresh. -/
theorem C5_amended_freshness (fs : CacheFS) (m now : Int) :
    is_cache_valid fs m now = true ↔
      (fs.cacheExists = true ∧ now - fs.cacheModTime < m ∧ fs.indexExists = true) := by
  unfold is_cache_valid
  by_cases h : fs.cacheModTime + m > now <;>
    cases hc : fs.cacheExists <;> cases hi : fs.indexExists <;>
      simp [h, hc, hi] <;> omega

/-- Claim C6: a single-host query whose identifier is absent from the
current index (the in-memory index, or the cached one loaded when the
in-memory index is empty) forces exactly one cache rebuild and looks the
identifier up again in the rebuilt index; when it is still absent the
result is the empty object and the operation succeeds — rebuild count 1
and `Except.ok none`, not an error. -/
theorem C6_soft_miss (cfg : Config) (env : HostQueryEnv) (st : BState)
    (cachedIndex : Index) (host : String)
    (h1 : dictGet (if st.index.isEmpty then { st with index := cachedIndex } else st).index
        (some host) = none)
    (h2 : dictGet (get_nodes_from cfg
        (if st.index.isEmpty then { st with index := cachedIndex } else st)
        env.nodes).index (some host) = none) :
    get_host_info cfg env st cachedIndex host = (1, Except.ok none) := by
  simp only [get_host_info]
  rw [h1, h2]
  simp

/-- Claim C6 at a concrete input: empty in-memory and cached index,
collaborator returning no nodes, query for `h2`. -/
theorem C6_soft_miss_witness :
    get_host_info cfgName { nodes := [], fetch := fun _ => none } initState [] "h2"
      = (1, Except.ok none) :=
  C6_soft_miss cfgName { nodes := [], fetch := fun _ => none } initState [] "h2" rfl rfl

/-- Claim C7, evidence of the code defect: when the single-node
collaborator fails, the single-host operation does NOT abort with the
underlying failure message — `get_node`'s handler formats the unbound
name `e` (the exception was bound as `err`), so the operation dies with
`NameError: name 'e' is not defined` before sys.exit can run.  Here the
index resolves `h1` to `node-a` and the collaborator fails for it. -/
theorem C7_name_error_on_failure :
    get_host_info cfgName { nodes := [], fetch := fun _ => none }
        { initState with index := [(some "h1", "node-a")] } [] "h1"
      = (0, Except.error (PyError.nameError "e")) := rfl

/-- Claim C8: a single-host query that resolves through the current
index re-queries the collaborator for that one node by name (the value
stored in the index) and normalizes the fresh record: the answer is
`get_host_info_node` of the re-fetched node, for EVERY object state
carrying that index entry — in particular it is independent of whatever
the cached hostvars blob (`st.inventory`) contains. -/
theorem C8_live_refetch (cfg : Config) (env : HostQueryEnv) (st : BState)
    (cachedIndex : Index) (host node_id : String) (node : Node)
    (h1 : dictGet (if st.index.isEmpty then { st with index := cachedIndex } else st).index
        (some host) = some node_id)
    (h2 : env.fetch node_id = some node) :
    get_host_info cfg env st cachedIndex host
      = (0, Except.ok (some (get_host_info_node cfg node))) := by
  simp only [get_host_info, host_fetch, get_node]
  rw [h1]
  simp [h2]

/-- An object state whose cached hostvars blob holds node-b's bundle
under the identifier that the index resolves to node-a. -/
def staleHostvarsState : BState :=
  { inventory :=
      { groups := [], hostvars := [(some "h1", get_host_info_node cfgName nodeB)] }
    index := [(some "h1", "node-a")]
    node_labels := [] }

/-- A collaborator that only knows node-a. -/
def envFetchA : HostQueryEnv :=
  { nodes := [], fetch := fun id => if id = "node-a" then some nodeA else none }

/-- Claim C8 at a concrete input: although the cached hostvars blob
holds node-b's bundle for `h1`, the query answers with the freshly
normalized node-a. -/
theorem C8_live_refetch_witness :
    get_host_info cfgName envFetchA staleHostvarsState [] "h1"
      = (0, Except.ok (some (get_host_info_node cfgName nodeA))) :=
  C8_live_refetch cfgName envFetchA staleHostvarsState [] "h1" "node-a" nodeA
    (by decide) (by decide)

/-- Claim C9: after a full build, every Host Identifier appearing in any
group of the inventory is a key of its hostvars map, and every key of
the index is a key of the hostvars map. -/
theorem C9_build_invariants (cfg : Config) (nodes : List Node) :
    (∀ g ∈ (get_nodes cfg nodes).inventory.groups, ∀ m ∈ g.2,
        m ∈ keysOf (get_nodes cfg nodes).inventory.hostvars) ∧
    (∀ k ∈ keysOf (get_nodes cfg nodes).index,
        k ∈ keysOf (get_nodes cfg nodes).inventory.hostvars) := by
  have h0 : InvOK initState := by
    constructor
    · intro m hm
      simp [initState] at hm
    · intro k hk
      simp [initState] at hk
  have h2 := invOK_get_nodes_from cfg nodes initState h0
  exact ⟨fun g hg m hm => h2.1 m (mem_allMembers_of_mem _ g hg m hm), h2.2⟩

/-- Claim C9 at a concrete input: node-a's identifier, a member of the
group `all` of the one-node build, is a hostvars key. -/
theorem C9_build_invariants_witness :
    some "node-a" ∈ keysOf (get_nodes cfgName [nodeA]).inventory.hostvars :=
  (C9_build_invariants cfgName [nodeA]).1 ("all", [some "node-a"]) (by decide)
    (some "node-a") (by decide)

theorem firstAddr_eq_none_of_no_match (t : String) (l : List Address)
    (h : l.all (fun a => a.type != t) = true) : firstAddr t l = none := by
  induction l with
  | nil => rfl
  | cons a rest ih =>
      simp only [List.all_cons, Bool.and_eq_true, bne_iff_ne] at h
      simp [firstAddr, h.1, ih h.2]

/-- The private-IP policy: public flag off, private flag on. -/
def cfgPriv : Config := { use_public_ip := false, use_private_ip := true }

/-- A node whose only address is an ExternalIP. -/
def nodeExternalOnly : Node :=
  mkNode "node-ext" [] [{ type := "ExternalIP", address := "1.2.3.4" }]

/-- Claim C10: when the active IP-selection policy — the public-IP
policy, or the private-IP policy (public flag off, private flag on) —
finds no address entry of its preferred type (ExternalIP, respectively
InternalIP), the Host Identifier does not fall back to the node name:
it is the absent value (Python None, `none`), and that value is the key
recorded in the index, the key in hostvars, and the member pushed into
the groups. -/
theorem C10_none_identifier (cfg : Config) (s : BState) (node : Node)
    (hpol : (cfg.use_public_ip = true ∧
               node.addresses.all (fun a => a.type != "ExternalIP") = true) ∨
            (cfg.use_public_ip = false ∧ cfg.use_private_ip = true ∧
               node.addresses.all (fun a => a.type != "InternalIP") = true)) :
    dest_of cfg node = none ∧
    none ∈ keysOf (add_node cfg s node).index ∧
    none ∈ keysOf (add_node cfg s node).inventory.hostvars ∧
    none ∈ allMembers (add_node cfg s node).inventory.groups := by
  have hd : dest_of cfg node = none := by
    rcases hpol with ⟨hp, h⟩ | ⟨hp, hpr, h⟩
    · simp [dest_of, hp, get_node_public_ip, firstAddr_eq_none_of_no_match _ _ h]
    · simp [dest_of, hp, hpr, get_node_private_ip, firstAddr_eq_none_of_no_match _ _ h]
  refine ⟨hd, ?_, ?_, ?_⟩
  · simp only [add_node, hd]
    exact (mem_keysOf_dictSet _ _ _ _).mpr (Or.inl rfl)
  · simp only [add_node, hd]
    exact (mem_keysOf_dictSet _ _ _ _).mpr (Or.inl rfl)
  · simp only [add_node, hd]
    exact mem_allMembers_foldl_push_mono (get_node_label node) none none
      s.node_labels (push s.inventory.groups "all" none)
      (mem_allMembers_push_self _ _ _)

/-- Claim C10 at concrete inputs for BOTH active policies: the public-IP
policy with a node having only an InternalIP address, and the private-IP
policy with a node having only an ExternalIP address. -/
theorem C10_none_identifier_witness :
    (dest_of cfgPub nodeInternalOnly = none ∧
     none ∈ keysOf (add_node cfgPub initState nodeInternalOnly).index ∧
     none ∈ keysOf (add_node cfgPub initState nodeInternalOnly).inventory.hostvars ∧
     none ∈ allMembers (add_node cfgPub initState nodeInternalOnly).inventory.groups) ∧
    (dest_of cfgPriv nodeExternalOnly = none ∧
     none ∈ keysOf (add_node cfgPriv initState nodeExternalOnly).index ∧
     none ∈ keysOf (add_node cfgPriv initState nodeExternalOnly).inventory.hostvars ∧
     none ∈ allMembers (add_node cfgPriv initState nodeExternalOnly).inventory.groups) :=
  ⟨C10_none_identifier cfgPub initState nodeInternalOnly (Or.inl ⟨rfl, by decide⟩),
   C10_none_identifier cfgPriv initState nodeExternalOnly (Or.inr ⟨rfl, rfl, by decide⟩)⟩

end KubePy
